import Mathlib

/-!
Verification of the latr token-rotation engine.

This file gives a shallow embedding of the rotation core of the repository:
`pkg/models/token.go` (the validity calculator), `internal/rotation/engine.go`
(the rotation engine) and the slice of `internal/config` the engine consumes.
Times and durations are modelled as integers (nanoseconds, as in Go's
`time` package); percentages are rationals; the Linode and Vault clients are
modelled as deterministic response functions, and every engine operation
returns, next to its Go result, the list of external calls (effects) it
performed, in order.
-/

namespace Latr

/-- Instants, as in Go `time.Time`: nanoseconds since the epoch.
The Go zero value `time.Time{}` is modelled as `0`. -/
abbrev Time := Int

/-- Durations, as in Go `time.Duration`: nanoseconds. -/
abbrev Duration := Int

/-- One minute, in nanoseconds (Go `time.Minute`). -/
def minute : Duration := 60 * 1000000000

/-- One hour, in nanoseconds (Go `time.Hour`). -/
def hour : Duration := 60 * minute

/-- Embeds `models.Token` (pkg/models/token.go). -/
structure Token where
  id : Int
  label : String
  token : String
  createdAt : Time
  expiresAt : Time
  scopes : String
  team : String
  validity : Duration
deriving Repr, DecidableEq

/-- Embeds `models.TokenState` (pkg/models/token.go), the rotation record. -/
structure TokenState where
  label : String
  currentLinodeID : Int
  currentTokenValue : String
  lastRotatedAt : Time
  previousLinodeID : Int
  previousExpiresAt : Time
  rotationCount : Int
deriving Repr, DecidableEq

/-- Embeds `Token.IsExpired`: `time.Now().After(t.ExpiresAt)` (strict). -/
def Token.IsExpired (t : Token) (now : Time) : Bool :=
  now > t.expiresAt

/-- Embeds `Token.TimeUntilExpiry`: `time.Until(t.ExpiresAt)`. -/
def Token.TimeUntilExpiry (t : Token) (now : Time) : Duration :=
  t.expiresAt - now

/-- Embeds `Token.PercentValidityRemaining`: `0` when expired, otherwise
`timeRemaining.Seconds() / t.Validity.Seconds() * 100`; the ratio of the
two nanosecond quantities equals the ratio of the second quantities. -/
def Token.PercentValidityRemaining (t : Token) (now : Time) : ℚ :=
  if t.IsExpired now then 0
  else ((t.TimeUntilExpiry now : ℚ) / (t.validity : ℚ)) * 100

/-- Embeds `Token.NeedsRotation`: expired, or percent remaining at most the
threshold (inclusive `<=`). -/
def Token.NeedsRotation (t : Token) (now : Time) (thresholdPercent : Int) : Bool :=
  if t.IsExpired now then true
  else decide (t.PercentValidityRemaining now ≤ (thresholdPercent : ℚ))

/-- Embeds `config.StorageConfig` (internal/config/loader.go). -/
structure StorageConfig where
  type : String
  path : String
deriving Repr, DecidableEq

/-- Embeds `config.TokenConfig` (internal/config/loader.go). -/
structure TokenConfig where
  label : String
  team : String
  validity : String
  scopes : String
  rotationThreshold : Int
  storage : List StorageConfig
deriving Repr, DecidableEq

/-- String suffix test over the character list (Go `strings.HasSuffix`,
used here for the literal unit ending the regex `^(\d+)(mo|d|h|m)$`). -/
def strEndsWith (s suffix : String) : Bool :=
  suffix.data.isSuffixOf s.data

/-- The characters of `s` with the final `n` dropped. -/
def strDropRight (s : String) (n : Nat) : List Char :=
  s.data.take (s.data.length - n)

/-- Decimal value of a digit string (Go `strconv.Atoi` on a `\d+` match). -/
def digitsToNat (cs : List Char) : Nat :=
  cs.foldl (fun acc c => acc * 10 + (c.toNat - '0'.toNat)) 0

/-- Shared helper for `ParseValidityDuration`: a submatch of `^(\d+)(unit)$`
with the unit already stripped; `numPart` must be one or more digits, else
the regex does not match at all; on a match `strconv.Atoi` cannot fail. -/
def parseValidityNum (validity : String) (numPart : List Char) (mult : Duration) :
    Except String Duration :=
  if numPart.length > 0 && numPart.all Char.isDigit then
    .ok ((digitsToNat numPart : Int) * mult)
  else
    .error ("invalid validity format: " ++ validity)

/-- Embeds `config.ParseValidityDuration`: matches `^(\d+)(mo|d|h|m)$`
(the alternation tries `mo` before `m`, so a trailing `mo` is the month
unit) and scales by 30 days, 1 day, 1 hour or 1 minute. -/
def ParseValidityDuration (validity : String) : Except String Duration :=
  if strEndsWith validity "mo" then
    parseValidityNum validity (strDropRight validity 2) (30 * 24 * hour)
  else if strEndsWith validity "d" then
    parseValidityNum validity (strDropRight validity 1) (24 * hour)
  else if strEndsWith validity "h" then
    parseValidityNum validity (strDropRight validity 1) hour
  else if strEndsWith validity "m" then
    parseValidityNum validity (strDropRight validity 1) minute
  else
    .error ("invalid validity format: " ++ validity)

/-- One external call performed by the engine, in the order issued.
Each constructor mirrors one method of the `LinodeClient` or `VaultClient`
interfaces of internal/rotation/engine.go. -/
inductive Effect where
  | createToken (label scopes : String) (expiry : Time)
  | findTokenByLabel (label : String)
  | revokeToken (tokenID : Int)
  | listTokens
  | writeToken (path token : String)
  | readToken (path : String)
  | writeTokenState (path : String) (state : TokenState)
  | readTokenState (path : String)
deriving Repr, DecidableEq

/-- Outcome of a Go function returning `error`: success, a returned error,
or a runtime panic (nil-pointer dereference, index out of range). -/
inductive GoResult where
  | ok
  | err (e : String)
  | panic (msg : String)
deriving Repr, DecidableEq

/-- Models the `LinodeClient` interface of internal/rotation/engine.go as
deterministic response functions: what each call would return this cycle.
`findTokenByLabel` distinguishes a Go nil slice (`none`) from a non-nil
slice (`some`), as `ProcessToken` compares the result against `nil`. -/
structure LinodeClient where
  createToken : String → String → Time → Except String Token
  findTokenByLabel : String → Except String (Option (List Token))
  revokeToken : Int → Except String Unit
  listTokens : Except String (List Token)

/-- Models the `VaultClient` interface of internal/rotation/engine.go.
`readTokenState` returns `none` for an absent record (Go `nil, nil`). -/
structure VaultClient where
  writeToken : String → String → Except String Unit
  readToken : String → Except String String
  writeTokenState : String → TokenState → Except String Unit
  readTokenState : String → Except String (Option TokenState)

/-- Embeds `rotation.Engine`. -/
structure Engine where
  linodeClient : LinodeClient
  vaultClient : VaultClient
  dryRun : Bool

/-- Embeds `Engine.storeTokenInBackends`: iterate the storage configs in
order; for each target of type `"vault"` call `WriteToken` and return its
error immediately on failure; other target types are not touched. -/
def Engine.storeTokenInBackends (e : Engine) (storageConfigs : List StorageConfig)
    (token : String) : Except String Unit × List Effect :=
  match storageConfigs with
  | [] => (.ok (), [])
  | storage :: rest =>
    if storage.type = "vault" then
      match e.vaultClient.writeToken storage.path token with
      | .error werr => (.error werr, [.writeToken storage.path token])
      | .ok () =>
        let tail := e.storeTokenInBackends rest token
        (tail.1, .writeToken storage.path token :: tail.2)
    else
      e.storeTokenInBackends rest token

/-- The Go local `rotationCount` opening `updateState` and
`updateStateAfterRotation`: the prior record's counter, `0` when the prior
record is absent (`existingState == nil`). -/
def priorRotationCount (existingState : Option TokenState) : Int :=
  match existingState with
  | none => 0
  | some s => s.rotationCount

/-- Embeds `Engine.updateState` (record written after creation): the
previous-identifier fields are zeroed and the rotation counter is carried
over from the prior record, `0` when there is none. -/
def Engine.updateState (e : Engine) (now : Time) (path : String) (newToken : Token)
    (existingState : Option TokenState) : Except String Unit × List Effect :=
  let rotationCount : Int := priorRotationCount existingState
  let state : TokenState :=
    { label := newToken.label
      currentLinodeID := newToken.id
      currentTokenValue := newToken.token
      lastRotatedAt := now
      previousLinodeID := 0
      previousExpiresAt := 0
      rotationCount := rotationCount }
  (e.vaultClient.writeTokenState path state, [.writeTokenState path state])

/-- Embeds `Engine.updateStateAfterRotation`: the previous-identifier
fields come from the outgoing token and the rotation counter is the prior
record's counter plus one (prior counter `0` when there is no record). -/
def Engine.updateStateAfterRotation (e : Engine) (now : Time) (path : String)
    (newToken oldToken : Token) (existingState : Option TokenState) :
    Except String Unit × List Effect :=
  let rotationCount : Int := priorRotationCount existingState
  let state : TokenState :=
    { label := newToken.label
      currentLinodeID := newToken.id
      currentTokenValue := newToken.token
      lastRotatedAt := now
      previousLinodeID := oldToken.id
      previousExpiresAt := oldToken.expiresAt
      rotationCount := rotationCount + 1 }
  (e.vaultClient.writeTokenState path state, [.writeTokenState path state])

/-- Embeds `Engine.createNewToken`: dry-run short-circuits; otherwise read
the prior record at the first storage target's path (`Storage[0]` panics on
an empty list), mint the token with expiry `now + validity`, store it in
the backends, and write the record; when the backend store fails the record
is still written best-effort (its error discarded) and the storage error is
returned. -/
def Engine.createNewToken (e : Engine) (now : Time) (tokenConfig : TokenConfig)
    (validity : Duration) : GoResult × List Effect :=
  if e.dryRun then (.ok, [])
  else
    match tokenConfig.storage with
    | [] => (.panic "runtime error: index out of range", [])
    | storage0 :: _ =>
      let storagePath := storage0.path
      match e.vaultClient.readTokenState storagePath with
      | .error rerr =>
        (.err ("failed to read token state: " ++ rerr), [.readTokenState storagePath])
      | .ok existingState =>
        let expiry := now + validity
        match e.linodeClient.createToken tokenConfig.label tokenConfig.scopes expiry with
        | .error cerr =>
          (.err ("failed to create token " ++ tokenConfig.label ++ " in Linode: " ++ cerr),
           [.readTokenState storagePath,
            .createToken tokenConfig.label tokenConfig.scopes expiry])
        | .ok newToken =>
          let store := e.storeTokenInBackends tokenConfig.storage newToken.token
          let pre := .readTokenState storagePath ::
            .createToken tokenConfig.label tokenConfig.scopes expiry :: store.2
          match store.1 with
          | .error serr =>
            let upd := e.updateState now storagePath newToken existingState
            (.err ("failed to store token in vault: " ++ serr), pre ++ upd.2)
          | .ok () =>
            let upd := e.updateState now storagePath newToken existingState
            match upd.1 with
            | .error uerr =>
              (.err ("failed to update token state: " ++ uerr), pre ++ upd.2)
            | .ok () => (.ok, pre ++ upd.2)

/-- Embeds `Engine.rotateToken`: same two-phase structure as creation, with
the record written through `updateStateAfterRotation`, carrying the
outgoing token's identifier and expiry. -/
def Engine.rotateToken (e : Engine) (now : Time) (tokenConfig : TokenConfig)
    (existingToken : Token) (validity : Duration) : GoResult × List Effect :=
  if e.dryRun then (.ok, [])
  else
    match tokenConfig.storage with
    | [] => (.panic "runtime error: index out of range", [])
    | storage0 :: _ =>
      let storagePath := storage0.path
      match e.vaultClient.readTokenState storagePath with
      | .error rerr =>
        (.err ("failed to read token state: " ++ rerr), [.readTokenState storagePath])
      | .ok existingState =>
        let newExpiry := now + validity
        match e.linodeClient.createToken tokenConfig.label tokenConfig.scopes newExpiry with
        | .error cerr =>
          (.err ("failed to create token " ++ tokenConfig.label ++ " in Linode: " ++ cerr),
           [.readTokenState storagePath,
            .createToken tokenConfig.label tokenConfig.scopes newExpiry])
        | .ok newToken =>
          let store := e.storeTokenInBackends tokenConfig.storage newToken.token
          let pre := .readTokenState storagePath ::
            .createToken tokenConfig.label tokenConfig.scopes newExpiry :: store.2
          match store.1 with
          | .error serr =>
            let upd := e.updateStateAfterRotation now storagePath newToken existingToken
              existingState
            (.err ("failed to store token in vault: " ++ serr), pre ++ upd.2)
          | .ok () =>
            let upd := e.updateStateAfterRotation now storagePath newToken existingToken
              existingState
            match upd.1 with
            | .error uerr =>
              (.err ("failed to update token state: " ++ uerr), pre ++ upd.2)
            | .ok () => (.ok, pre ++ upd.2)

/-- Embeds the duplicate-label loop of `ProcessToken`: keep the token with
the strictly latest creation timestamp (`t.CreatedAt.After(existing)`), so
the first of several exact ties wins; `none` on the empty list. -/
def selStep (existingToken : Option Token) (t : Token) : Option Token :=
  match existingToken with
  | none => some t
  | some cur => if t.createdAt > cur.createdAt then some t else some cur

def selectNewest (tokens : List Token) : Option Token :=
  tokens.foldl selStep none

/-- Embeds `Engine.ProcessToken`: parse the validity, query the issuer by
label, create when the result is a nil slice, otherwise pick the newest
duplicate (a non-nil empty slice leaves the Go `existingToken` pointer nil
and the subsequent field assignment panics), overwrite its validity, and
rotate when `NeedsRotation` holds. -/
def Engine.ProcessToken (e : Engine) (now : Time) (tokenConfig : TokenConfig)
    (thresholdPercent : Int) : GoResult × List Effect :=
  match ParseValidityDuration tokenConfig.validity with
  | .error verr =>
    (.err ("invalid validity for token " ++ tokenConfig.label ++ ": " ++ verr), [])
  | .ok validity =>
    match e.linodeClient.findTokenByLabel tokenConfig.label with
    | .error ferr =>
      (.err ("failed to find token " ++ tokenConfig.label ++ ": " ++ ferr),
       [.findTokenByLabel tokenConfig.label])
    | .ok none =>
      let created := e.createNewToken now tokenConfig validity
      (created.1, .findTokenByLabel tokenConfig.label :: created.2)
    | .ok (some existingTokens) =>
      match selectNewest existingTokens with
      | none =>
        (.panic "runtime error: invalid memory address or nil pointer dereference",
         [.findTokenByLabel tokenConfig.label])
      | some chosen =>
        let existingToken := { chosen with validity := validity }
        if existingToken.NeedsRotation now thresholdPercent then
          let rotated := e.rotateToken now tokenConfig existingToken validity
          (rotated.1, .findTokenByLabel tokenConfig.label :: rotated.2)
        else
          (.ok, [.findTokenByLabel tokenConfig.label])

/-- Embeds the loop body of `Engine.PruneExpiredTokens`: for a listed token
that carries a managed label and is expired, request revocation; a
revocation error is logged and the loop continues with the remaining
tokens. The accumulator holds the effects issued so far. -/
def pruneStep (e : Engine) (now : Time) (managedLabels : List String)
    (acc : List Effect) (token : Token) : List Effect :=
  if managedLabels.contains token.label then
    if token.IsExpired now then
      if e.dryRun then acc
      else
        match e.linodeClient.revokeToken token.id with
        | .error _ => acc ++ [.revokeToken token.id]
        | .ok () => acc ++ [.revokeToken token.id]
    else acc
  else acc

/-- Embeds `Engine.PruneExpiredTokens`: list all tokens at the issuer,
short-circuit in dry-run, then run `pruneStep` over every listed token. -/
def Engine.PruneExpiredTokens (e : Engine) (now : Time) (managedLabels : List String) :
    GoResult × List Effect :=
  match e.linodeClient.listTokens with
  | .error lerr => (.err ("failed to list tokens: " ++ lerr), [.listTokens])
  | .ok allTokens =>
    if e.dryRun then (.ok, [.listTokens])
    else
      let effs := allTokens.foldl (pruneStep e now managedLabels) []
      (.ok, .listTokens :: effs)

/-- A sample token used to instantiate witnesses: 100 ns validity, expiring
at instant 100. -/
def sampleToken : Token :=
  { id := 1, label := "t1", token := "", createdAt := 0, expiresAt := 100,
    scopes := "*", team := "", validity := 100 }

/-- C2: for every token with a positive validity duration and every
threshold `T`, `NeedsRotation T` is true exactly when the token is expired
or its percent of validity remaining is at most `T`; the boundary is
inclusive, and every expired token needs rotation regardless of `T`. -/
theorem needsRotation_threshold_spec (t : Token) (now : Time) (T : Int)
    (hv : 0 < t.validity) :
    (t.NeedsRotation now T = true ↔
      (t.IsExpired now = true ∨ t.PercentValidityRemaining now ≤ (T : ℚ)))
    ∧ (t.PercentValidityRemaining now = (T : ℚ) → t.NeedsRotation now T = true)
    ∧ (t.IsExpired now = true → t.NeedsRotation now T = true) := by
  have hiff : t.NeedsRotation now T = true ↔
      (t.IsExpired now = true ∨ t.PercentValidityRemaining now ≤ (T : ℚ)) := by
    by_cases hexp : t.IsExpired now = true
    · simp [Token.NeedsRotation, hexp]
    · simp [Token.NeedsRotation, hexp]
  refine ⟨hiff, fun heq => ?_, fun hexp => ?_⟩
  · exact hiff.mpr (Or.inr (le_of_eq heq))
  · exact hiff.mpr (Or.inl hexp)

/-- Witness for C2 at `sampleToken`, `now = 0`, `T = 10`. -/
theorem needsRotation_threshold_spec_witness :
    0 < sampleToken.validity ∧
    ((sampleToken.NeedsRotation 0 10 = true ↔
        (sampleToken.IsExpired 0 = true ∨
          sampleToken.PercentValidityRemaining 0 ≤ (10 : ℚ)))
      ∧ (sampleToken.PercentValidityRemaining 0 = (10 : ℚ) →
          sampleToken.NeedsRotation 0 10 = true)
      ∧ (sampleToken.IsExpired 0 = true → sampleToken.NeedsRotation 0 10 = true)) :=
  ⟨by decide, needsRotation_threshold_spec sampleToken 0 10 (by decide)⟩

/-- C9: for every token with a positive validity duration,
`PercentValidityRemaining` equals `max 0 (time until expiry) / validity *
100`, is never negative, and is exactly `0` on every expired token. -/
theorem percentValidityRemaining_spec (t : Token) (now : Time) (hv : 0 < t.validity) :
    t.PercentValidityRemaining now
        = max 0 ((t.expiresAt : ℚ) - (now : ℚ)) / (t.validity : ℚ) * 100
    ∧ 0 ≤ t.PercentValidityRemaining now
    ∧ (t.IsExpired now = true → t.PercentValidityRemaining now = 0) := by
  have hvq : (0 : ℚ) < (t.validity : ℚ) := by exact_mod_cast hv
  by_cases hexp : t.IsExpired now = true
  · have hlt : now > t.expiresAt := by
      simpa [Token.IsExpired] using hexp
    have hneg : (t.expiresAt : ℚ) - (now : ℚ) ≤ 0 := by
      have : (t.expiresAt : ℚ) < (now : ℚ) := by exact_mod_cast hlt
      linarith
    have hmax : max 0 ((t.expiresAt : ℚ) - (now : ℚ)) = 0 := max_eq_left hneg
    refine ⟨?_, ?_, fun _ => ?_⟩
    · simp [Token.PercentValidityRemaining, hexp, hmax]
    · simp [Token.PercentValidityRemaining, hexp]
    · simp [Token.PercentValidityRemaining, hexp]
  · have hle : now ≤ t.expiresAt := by
      have h := hexp
      simp [Token.IsExpired, not_lt] at h
      exact h
    have hnn : 0 ≤ (t.expiresAt : ℚ) - (now : ℚ) := by
      have : (now : ℚ) ≤ (t.expiresAt : ℚ) := by exact_mod_cast hle
      linarith
    have hmax : max 0 ((t.expiresAt : ℚ) - (now : ℚ)) = (t.expiresAt : ℚ) - (now : ℚ) :=
      max_eq_right hnn
    have heq : t.PercentValidityRemaining now
        = ((t.expiresAt : ℚ) - (now : ℚ)) / (t.validity : ℚ) * 100 := by
      unfold Token.PercentValidityRemaining Token.TimeUntilExpiry
      rw [if_neg hexp]
      push_cast
      ring
    refine ⟨by rw [heq, hmax], ?_, fun hcon => absurd hcon hexp⟩
    · rw [heq]
      positivity

/-- Witness for C9 at `sampleToken`, `now = 0`. -/
theorem percentValidityRemaining_spec_witness :
    0 < sampleToken.validity ∧
    (sampleToken.PercentValidityRemaining 0
        = max 0 ((sampleToken.expiresAt : ℚ) - ((0 : Time) : ℚ))
            / (sampleToken.validity : ℚ) * 100
      ∧ 0 ≤ sampleToken.PercentValidityRemaining 0
      ∧ (sampleToken.IsExpired 0 = true → sampleToken.PercentValidityRemaining 0 = 0)) :=
  ⟨by decide, percentValidityRemaining_spec sampleToken 0 (by decide)⟩

/-- Every effect issued by `storeTokenInBackends` is a `WriteToken` of the
new secret to the path of some vault-typed storage target of the list. -/
theorem storeTokenInBackends_effects (e : Engine) (configs : List StorageConfig)
    (tok : String) (eff : Effect) :
    eff ∈ (e.storeTokenInBackends configs tok).2 →
    ∃ sc, sc ∈ configs ∧ sc.type = "vault" ∧ eff = .writeToken sc.path tok := by
  induction configs with
  | nil => intro h; simp [Engine.storeTokenInBackends] at h
  | cons sc rest ih =>
    intro h
    simp only [Engine.storeTokenInBackends] at h
    by_cases htype : sc.type = "vault"
    · rw [if_pos htype] at h
      cases hw : e.vaultClient.writeToken sc.path tok with
      | error werr =>
        rw [hw] at h
        simp only [List.mem_singleton] at h
        exact ⟨sc, List.mem_cons_self sc rest, htype, h⟩
      | ok u =>
        cases u
        rw [hw] at h
        simp only [List.mem_cons] at h
        rcases h with h | h
        · exact ⟨sc, List.mem_cons_self sc rest, htype, h⟩
        · obtain ⟨sc', hmem, ht, he⟩ := ih h
          exact ⟨sc', List.mem_cons_of_mem _ hmem, ht, he⟩
    · rw [if_neg htype] at h
      obtain ⟨sc', hmem, ht, he⟩ := ih h
      exact ⟨sc', List.mem_cons_of_mem _ hmem, ht, he⟩

/-- Every effect in the trace of `rotateToken` is a record read, a token
creation, a backend secret write, or a record write. -/
theorem rotateToken_effects (e : Engine) (now : Time) (cfg : TokenConfig)
    (old : Token) (validity : Duration) (eff : Effect)
    (h : eff ∈ (e.rotateToken now cfg old validity).2) :
    (∃ p, eff = .readTokenState p) ∨ (∃ l s x, eff = .createToken l s x) ∨
    (∃ p v, eff = .writeToken p v) ∨ (∃ p st, eff = .writeTokenState p st) := by
  unfold Engine.rotateToken at h
  by_cases hd : e.dryRun = true
  · rw [if_pos hd] at h
    simp at h
  · rw [if_neg hd] at h
    cases hs : cfg.storage with
    | nil => rw [hs] at h; simp at h
    | cons s0 rest =>
      rw [hs] at h
      dsimp only at h
      cases hr : e.vaultClient.readTokenState s0.path with
      | error rerr =>
        rw [hr] at h
        simp only [List.mem_singleton] at h
        exact Or.inl ⟨s0.path, h⟩
      | ok st =>
        rw [hr] at h
        dsimp only at h
        cases hc : e.linodeClient.createToken cfg.label cfg.scopes (now + validity) with
        | error cerr =>
          rw [hc] at h
          simp only [List.mem_cons, List.mem_singleton, List.not_mem_nil, or_false] at h
          rcases h with h | h
          · exact Or.inl ⟨s0.path, h⟩
          · exact Or.inr (Or.inl ⟨cfg.label, cfg.scopes, now + validity, h⟩)
        | ok newToken =>
          rw [hc] at h
          dsimp only at h
          have hmem : eff ∈ Effect.readTokenState s0.path ::
              Effect.createToken cfg.label cfg.scopes (now + validity) ::
              (e.storeTokenInBackends (s0 :: rest) newToken.token).2 ++
              (e.updateStateAfterRotation now s0.path newToken old st).2 := by
            cases hst : (e.storeTokenInBackends (s0 :: rest) newToken.token).1 with
            | error serr => rw [hst] at h; exact h
            | ok u =>
              cases u
              rw [hst] at h
              cases hu : (e.updateStateAfterRotation now s0.path newToken old st).1 with
              | error uerr => rw [hu] at h; exact h
              | ok u2 => cases u2; rw [hu] at h; exact h
          simp only [Engine.updateStateAfterRotation, List.mem_cons, List.mem_append,
            List.mem_singleton, List.not_mem_nil, or_false] at hmem
          rcases hmem with (h' | h' | h') | h'
          · exact Or.inl ⟨s0.path, h'⟩
          · exact Or.inr (Or.inl ⟨cfg.label, cfg.scopes, now + validity, h'⟩)
          · obtain ⟨sc, _, _, he⟩ :=
              storeTokenInBackends_effects e (s0 :: rest) newToken.token eff h'
            exact Or.inr (Or.inr (Or.inl ⟨sc.path, newToken.token, he⟩))
          · exact Or.inr (Or.inr (Or.inr ⟨s0.path, _, h'⟩))

/-- C8: the rotation path makes no revocation call to the issuer: no
`RevokeToken` effect ever appears in the trace of `rotateToken`, so the
issuer-side state of the outgoing credential is untouched by rotation. -/
theorem rotateToken_never_revokes (e : Engine) (now : Time) (cfg : TokenConfig)
    (old : Token) (validity : Duration) (i : Int) :
    Effect.revokeToken i ∉ (e.rotateToken now cfg old validity).2 := by
  intro hmem
  rcases rotateToken_effects e now cfg old validity _ hmem with
    ⟨p, h⟩ | ⟨l, s, x, h⟩ | ⟨p, v, h⟩ | ⟨p, st, h⟩ <;> exact Effect.noConfusion h

/-- The prune loop body only appends: effects already issued are kept. -/
theorem pruneStep_mono (e : Engine) (now : Time) (ml : List String)
    (acc : List Effect) (token : Token) (eff : Effect) (h : eff ∈ acc) :
    eff ∈ pruneStep e now ml acc token := by
  unfold pruneStep
  repeat' split
  all_goals first
    | exact h
    | exact List.mem_append_left _ h

/-- Effects survive the whole prune fold. -/
theorem pruneFold_mono (e : Engine) (now : Time) (ml : List String)
    (toks : List Token) (acc : List Effect) (eff : Effect) (h : eff ∈ acc) :
    eff ∈ toks.foldl (pruneStep e now ml) acc := by
  induction toks generalizing acc with
  | nil => simpa using h
  | cons t ts ih => exact ih _ (pruneStep_mono e now ml acc t eff h)

/-- Any effect produced by the prune fold beyond the accumulator is the
revocation of a listed token with a managed label that is expired. -/
theorem pruneFold_sound (e : Engine) (now : Time) (ml : List String)
    (toks : List Token) (acc : List Effect) (eff : Effect)
    (h : eff ∈ toks.foldl (pruneStep e now ml) acc) :
    eff ∈ acc ∨ ∃ tok, tok ∈ toks ∧ ml.contains tok.label = true ∧
      tok.IsExpired now = true ∧ eff = .revokeToken tok.id := by
  induction toks generalizing acc with
  | nil => exact Or.inl (by simpa using h)
  | cons t ts ih =>
    rw [List.foldl_cons] at h
    rcases ih (pruneStep e now ml acc t) h with h' | ⟨tok, hmem, hcl, hexp, heq⟩
    · unfold pruneStep at h'
      by_cases hcl : ml.contains t.label = true
      · rw [if_pos hcl] at h'
        by_cases hexp : t.IsExpired now = true
        · rw [if_pos hexp] at h'
          by_cases hd : e.dryRun = true
          · rw [if_pos hd] at h'
            exact Or.inl h'
          · rw [if_neg hd] at h'
            have hap : eff ∈ acc ++ [Effect.revokeToken t.id] := by
              cases hr : e.linodeClient.revokeToken t.id with
              | error er => rw [hr] at h'; exact h'
              | ok u => cases u; rw [hr] at h'; exact h'
            rcases List.mem_append.mp hap with h'' | h''
            · exact Or.inl h''
            · exact Or.inr ⟨t, List.mem_cons_self t ts, hcl, hexp,
                List.mem_singleton.mp h''⟩
        · rw [if_neg hexp] at h'
          exact Or.inl h'
      · rw [if_neg hcl] at h'
        exact Or.inl h'
    · exact Or.inr ⟨tok, List.mem_cons_of_mem _ hmem, hcl, hexp, heq⟩

/-- Outside dry-run, every listed managed expired token gets a revocation
request, so an earlier revocation failure never stops the pass. -/
theorem pruneFold_complete (e : Engine) (now : Time) (ml : List String)
    (toks : List Token) (tok : Token) (hcl : ml.contains tok.label = true)
    (hexp : tok.IsExpired now = true) (hd : e.dryRun = false) :
    ∀ acc, tok ∈ toks → Effect.revokeToken tok.id ∈
      toks.foldl (pruneStep e now ml) acc := by
  induction toks with
  | nil => intro acc hmem; simp at hmem
  | cons t ts ih =>
    intro acc hmem
    rw [List.foldl_cons]
    rcases List.mem_cons.mp hmem with heq | hmem'
    · subst heq
      apply pruneFold_mono
      unfold pruneStep
      rw [if_pos hcl, if_pos hexp, if_neg (by simp [hd])]
      cases hr : e.linodeClient.revokeToken tok.id with
      | error er => exact List.mem_append_right _ (by simp)
      | ok u => cases u; exact List.mem_append_right _ (by simp)
    · exact ih _ hmem'

/-- C4: `PruneExpiredTokens` only revokes listed credentials whose label is
in the managed set and which are expired; and outside dry-run no revocation
failure stops the pass: every listed managed expired credential receives a
revocation request. -/
theorem pruneExpiredTokens_safety (e : Engine) (now : Time)
    (managedLabels : List String) (toks : List Token)
    (hlist : e.linodeClient.listTokens = .ok toks) :
    (∀ i, Effect.revokeToken i ∈ (e.PruneExpiredTokens now managedLabels).2 →
      ∃ tok, tok ∈ toks ∧ tok.id = i ∧
        managedLabels.contains tok.label = true ∧ tok.IsExpired now = true)
    ∧ (e.dryRun = false → ∀ tok, tok ∈ toks →
        managedLabels.contains tok.label = true → tok.IsExpired now = true →
        Effect.revokeToken tok.id ∈ (e.PruneExpiredTokens now managedLabels).2) := by
  constructor
  · intro i hmem
    unfold Engine.PruneExpiredTokens at hmem
    rw [hlist] at hmem
    dsimp only at hmem
    by_cases hd : e.dryRun = true
    · rw [if_pos hd] at hmem
      simp at hmem
    · rw [if_neg hd] at hmem
      rcases List.mem_cons.mp hmem with h | h
      · exact absurd h (by simp)
      · rcases pruneFold_sound e now managedLabels toks [] _ h with h' | h'
        · simp at h'
        · obtain ⟨tok, hmem', hcl, hexp, heq⟩ := h'
          have hid : tok.id = i := by
            injection heq with h''
            exact h''.symm
          exact ⟨tok, hmem', hid, hcl, hexp⟩
  · intro hd tok hmem hcl hexp
    unfold Engine.PruneExpiredTokens
    rw [hlist]
    dsimp only
    rw [if_neg (by simp [hd])]
    exact List.mem_cons_of_mem _
      (pruneFold_complete e now managedLabels toks tok hcl hexp hd [] hmem)

/-- Witness for C4: one engine, one managed expired token, one unmanaged
expired token; the managed one is the only revocation. -/
theorem pruneExpiredTokens_safety_witness :
    let expiredManaged : Token :=
      { id := 7, label := "t1", token := "", createdAt := 0, expiresAt := 5,
        scopes := "*", team := "", validity := 5 }
    let expiredUnmanaged : Token :=
      { id := 8, label := "other", token := "", createdAt := 0, expiresAt := 5,
        scopes := "*", team := "", validity := 5 }
    let e : Engine :=
      { linodeClient :=
          { createToken := fun _ _ _ => .error "unused"
            findTokenByLabel := fun _ => .error "unused"
            revokeToken := fun _ => .ok ()
            listTokens := .ok [expiredManaged, expiredUnmanaged] }
        vaultClient :=
          { writeToken := fun _ _ => .ok ()
            readToken := fun _ => .error "unused"
            writeTokenState := fun _ _ => .ok ()
            readTokenState := fun _ => .ok none }
        dryRun := false }
    (∀ i, Effect.revokeToken i ∈ (e.PruneExpiredTokens 10 ["t1"]).2 →
      ∃ tok, tok ∈ [expiredManaged, expiredUnmanaged] ∧ tok.id = i ∧
        (["t1"].contains tok.label) = true ∧ tok.IsExpired 10 = true)
    ∧ (e.dryRun = false → ∀ tok, tok ∈ [expiredManaged, expiredUnmanaged] →
        (["t1"].contains tok.label) = true → tok.IsExpired 10 = true →
        Effect.revokeToken tok.id ∈ (e.PruneExpiredTokens 10 ["t1"]).2) :=
  pruneExpiredTokens_safety _ 10 ["t1"] _ rfl

/-- Outside dry-run with a nonempty storage list, the creation path's first
external call is the record read at the first storage target's path. -/
theorem createNewToken_trace_head (e : Engine) (now : Time) (cfg : TokenConfig)
    (validity : Duration) (s0 : StorageConfig) (rest : List StorageConfig)
    (hd : e.dryRun = false) (hs : cfg.storage = s0 :: rest) :
    ∃ tail, (e.createNewToken now cfg validity).2
      = .readTokenState s0.path :: tail := by
  unfold Engine.createNewToken
  rw [if_neg (by simp [hd]), hs]
  dsimp only
  cases hr : e.vaultClient.readTokenState s0.path with
  | error rerr => exact ⟨[], rfl⟩
  | ok st =>
    cases hc : e.linodeClient.createToken cfg.label cfg.scopes (now + validity) with
    | error cerr => exact ⟨_, rfl⟩
    | ok newToken =>
      dsimp only
      cases hst : (e.storeTokenInBackends (s0 :: rest) newToken.token).1 with
      | error serr => exact ⟨_, rfl⟩
      | ok u =>
        cases u
        cases hu : (e.updateState now s0.path newToken st).1 with
        | error uerr => exact ⟨_, rfl⟩
        | ok u2 => cases u2; exact ⟨_, rfl⟩

/-- Outside dry-run with a nonempty storage list, the rotation path's first
external call is the record read at the first storage target's path. -/
theorem rotateToken_trace_head (e : Engine) (now : Time) (cfg : TokenConfig)
    (old : Token) (validity : Duration) (s0 : StorageConfig) (rest : List StorageConfig)
    (hd : e.dryRun = false) (hs : cfg.storage = s0 :: rest) :
    ∃ tail, (e.rotateToken now cfg old validity).2
      = .readTokenState s0.path :: tail := by
  unfold Engine.rotateToken
  rw [if_neg (by simp [hd]), hs]
  dsimp only
  cases hr : e.vaultClient.readTokenState s0.path with
  | error rerr => exact ⟨[], rfl⟩
  | ok st =>
    cases hc : e.linodeClient.createToken cfg.label cfg.scopes (now + validity) with
    | error cerr => exact ⟨_, rfl⟩
    | ok newToken =>
      dsimp only
      cases hst : (e.storeTokenInBackends (s0 :: rest) newToken.token).1 with
      | error serr => exact ⟨_, rfl⟩
      | ok u =>
        cases u
        cases hu : (e.updateStateAfterRotation now s0.path newToken old st).1 with
        | error uerr => exact ⟨_, rfl⟩
        | ok u2 => cases u2; exact ⟨_, rfl⟩

/-- C10: outside dry-run, both the creation and the rotation path read the
rotation record at the first configured storage target's path before any
issuer create; when that read fails the call returns the read error having
issued no other external call at all. -/
theorem readState_first_and_clean_failure (e : Engine) (now : Time)
    (cfg : TokenConfig) (old : Token) (validity : Duration)
    (s0 : StorageConfig) (rest : List StorageConfig)
    (hd : e.dryRun = false) (hs : cfg.storage = s0 :: rest) :
    ((e.createNewToken now cfg validity).2.head? = some (.readTokenState s0.path)
      ∧ (e.rotateToken now cfg old validity).2.head? = some (.readTokenState s0.path))
    ∧ (∀ rerr, e.vaultClient.readTokenState s0.path = .error rerr →
        e.createNewToken now cfg validity
          = (.err ("failed to read token state: " ++ rerr), [.readTokenState s0.path])
        ∧ e.rotateToken now cfg old validity
          = (.err ("failed to read token state: " ++ rerr), [.readTokenState s0.path])) := by
  refine ⟨⟨?_, ?_⟩, ?_⟩
  · obtain ⟨tail, htail⟩ := createNewToken_trace_head e now cfg validity s0 rest hd hs
    rw [htail]
    rfl
  · obtain ⟨tail, htail⟩ := rotateToken_trace_head e now cfg old validity s0 rest hd hs
    rw [htail]
    rfl
  · intro rerr hr
    constructor
    · unfold Engine.createNewToken
      rw [if_neg (by simp [hd]), hs]
      dsimp only
      rw [hr]
    · unfold Engine.rotateToken
      rw [if_neg (by simp [hd]), hs]
      dsimp only
      rw [hr]

/-- Witness for C10: a vault whose record read fails with `"boom"`. -/
theorem readState_first_and_clean_failure_witness :
    let e : Engine :=
      { linodeClient :=
          { createToken := fun _ _ _ => .ok sampleToken
            findTokenByLabel := fun _ => .ok none
            revokeToken := fun _ => .ok ()
            listTokens := .ok [] }
        vaultClient :=
          { writeToken := fun _ _ => .ok ()
            readToken := fun _ => .error "unused"
            writeTokenState := fun _ _ => .ok ()
            readTokenState := fun _ => .error "boom" }
        dryRun := false }
    let cfg : TokenConfig :=
      { label := "t1", team := "", validity := "90d", scopes := "*",
        rotationThreshold := 0, storage := [{ type := "vault", path := "p" }] }
    ((e.createNewToken 0 cfg 100).2.head?
        = some (.readTokenState "p")
      ∧ (e.rotateToken 0 cfg sampleToken 100).2.head?
        = some (.readTokenState "p"))
    ∧ (∀ rerr, e.vaultClient.readTokenState "p" = .error rerr →
        e.createNewToken 0 cfg 100
          = (.err ("failed to read token state: " ++ rerr), [.readTokenState "p"])
        ∧ e.rotateToken 0 cfg sampleToken 100
          = (.err ("failed to read token state: " ++ rerr), [.readTokenState "p"])) :=
  readState_first_and_clean_failure _ 0 _ sampleToken 100
    { type := "vault", path := "p" } [] rfl rfl

/-- C1: on both the creation and rotation paths, when the backend secret
store fails after the issuer has minted the new credential, the rotation
record is still written, pointing `currentLinodeID` at the newly minted
identifier, and the returned error is the storage error — whatever the
best-effort record write itself returned. -/
theorem storageFailure_record_still_written (e : Engine) (now : Time)
    (cfg : TokenConfig) (old : Token) (validity : Duration)
    (s0 : StorageConfig) (rest : List StorageConfig) (prior : Option TokenState)
    (newToken : Token) (serr : String)
    (hd : e.dryRun = false) (hs : cfg.storage = s0 :: rest)
    (hr : e.vaultClient.readTokenState s0.path = .ok prior)
    (hc : e.linodeClient.createToken cfg.label cfg.scopes (now + validity) = .ok newToken)
    (hst : (e.storeTokenInBackends (s0 :: rest) newToken.token).1 = .error serr) :
    ((e.createNewToken now cfg validity).1
        = .err ("failed to store token in vault: " ++ serr)
      ∧ ∃ st, Effect.writeTokenState s0.path st ∈ (e.createNewToken now cfg validity).2
          ∧ st.currentLinodeID = newToken.id)
    ∧ ((e.rotateToken now cfg old validity).1
        = .err ("failed to store token in vault: " ++ serr)
      ∧ ∃ st, Effect.writeTokenState s0.path st ∈ (e.rotateToken now cfg old validity).2
          ∧ st.currentLinodeID = newToken.id) := by
  have hcreate : e.createNewToken now cfg validity
      = (.err ("failed to store token in vault: " ++ serr),
         (.readTokenState s0.path ::
          .createToken cfg.label cfg.scopes (now + validity) ::
          (e.storeTokenInBackends (s0 :: rest) newToken.token).2) ++
         (e.updateState now s0.path newToken prior).2) := by
    unfold Engine.createNewToken
    rw [if_neg (by simp [hd]), hs]
    dsimp only
    rw [hr]
    dsimp only
    rw [hc]
    dsimp only
    rw [hst]
  have hrotate : e.rotateToken now cfg old validity
      = (.err ("failed to store token in vault: " ++ serr),
         (.readTokenState s0.path ::
          .createToken cfg.label cfg.scopes (now + validity) ::
          (e.storeTokenInBackends (s0 :: rest) newToken.token).2) ++
         (e.updateStateAfterRotation now s0.path newToken old prior).2) := by
    unfold Engine.rotateToken
    rw [if_neg (by simp [hd]), hs]
    dsimp only
    rw [hr]
    dsimp only
    rw [hc]
    dsimp only
    rw [hst]
  constructor
  · refine ⟨by rw [hcreate],
      ⟨{ label := newToken.label, currentLinodeID := newToken.id,
         currentTokenValue := newToken.token, lastRotatedAt := now,
         previousLinodeID := 0, previousExpiresAt := 0,
         rotationCount := priorRotationCount prior },
       ?_, rfl⟩⟩
    rw [hcreate]
    exact List.mem_append_right _ (by simp [Engine.updateState])
  · refine ⟨by rw [hrotate],
      ⟨{ label := newToken.label, currentLinodeID := newToken.id,
         currentTokenValue := newToken.token, lastRotatedAt := now,
         previousLinodeID := old.id, previousExpiresAt := old.expiresAt,
         rotationCount := priorRotationCount prior + 1 },
       ?_, rfl⟩⟩
    rw [hrotate]
    exact List.mem_append_right _ (by simp [Engine.updateStateAfterRotation])

/-- Witness for C1: the backend write fails with `"disk full"` and the
record write itself also fails, yet the storage error is returned and the
record write carrying the new identifier is issued on both paths. -/
theorem storageFailure_record_still_written_witness :
    let minted : Token :=
      { id := 42, label := "t1", token := "sec", createdAt := 0, expiresAt := 100,
        scopes := "*", team := "", validity := 100 }
    let e : Engine :=
      { linodeClient :=
          { createToken := fun _ _ _ => .ok minted
            findTokenByLabel := fun _ => .ok none
            revokeToken := fun _ => .ok ()
            listTokens := .ok [] }
        vaultClient :=
          { writeToken := fun _ _ => .error "disk full"
            readToken := fun _ => .error "unused"
            writeTokenState := fun _ _ => .error "record write fails too"
            readTokenState := fun _ => .ok none }
        dryRun := false }
    let cfg : TokenConfig :=
      { label := "t1", team := "", validity := "90d", scopes := "*",
        rotationThreshold := 0, storage := [{ type := "vault", path := "p" }] }
    ((e.createNewToken 0 cfg 100).1
        = .err ("failed to store token in vault: " ++ "disk full")
      ∧ ∃ st, Effect.writeTokenState "p" st ∈ (e.createNewToken 0 cfg 100).2
          ∧ st.currentLinodeID = minted.id)
    ∧ ((e.rotateToken 0 cfg sampleToken 100).1
        = .err ("failed to store token in vault: " ++ "disk full")
      ∧ ∃ st, Effect.writeTokenState "p" st ∈ (e.rotateToken 0 cfg sampleToken 100).2
          ∧ st.currentLinodeID = minted.id) :=
  storageFailure_record_still_written _ 0 _ sampleToken 100
    { type := "vault", path := "p" } [] none _ "disk full" rfl rfl rfl rfl rfl

/-- Full characterization of any record write issued by `rotateToken`:
fields come from the minted token, the outgoing token, and the prior
record's counter plus one. -/
theorem rotateToken_writeState (e : Engine) (now : Time) (cfg : TokenConfig)
    (old : Token) (validity : Duration) (s0 : StorageConfig) (rest : List StorageConfig)
    (prior : Option TokenState)
    (hd : e.dryRun = false) (hs : cfg.storage = s0 :: rest)
    (hr : e.vaultClient.readTokenState s0.path = .ok prior) :
    ∀ path st, Effect.writeTokenState path st ∈ (e.rotateToken now cfg old validity).2 →
      path = s0.path ∧ ∃ newToken,
        e.linodeClient.createToken cfg.label cfg.scopes (now + validity) = .ok newToken
        ∧ st = { label := newToken.label, currentLinodeID := newToken.id,
                 currentTokenValue := newToken.token, lastRotatedAt := now,
                 previousLinodeID := old.id, previousExpiresAt := old.expiresAt,
                 rotationCount := priorRotationCount prior + 1 } := by
  intro path st hmem
  unfold Engine.rotateToken at hmem
  rw [if_neg (by simp [hd]), hs] at hmem
  dsimp only at hmem
  rw [hr] at hmem
  dsimp only at hmem
  cases hc : e.linodeClient.createToken cfg.label cfg.scopes (now + validity) with
  | error cerr =>
    rw [hc] at hmem
    simp at hmem
  | ok newToken =>
    rw [hc] at hmem
    dsimp only at hmem
    have hmem' : Effect.writeTokenState path st ∈ Effect.readTokenState s0.path ::
        Effect.createToken cfg.label cfg.scopes (now + validity) ::
        (e.storeTokenInBackends (s0 :: rest) newToken.token).2 ++
        (e.updateStateAfterRotation now s0.path newToken old prior).2 := by
      cases hst : (e.storeTokenInBackends (s0 :: rest) newToken.token).1 with
      | error serr => rw [hst] at hmem; exact hmem
      | ok u =>
        cases u
        rw [hst] at hmem
        cases hu : (e.updateStateAfterRotation now s0.path newToken old prior).1 with
        | error uerr => rw [hu] at hmem; exact hmem
        | ok u2 => cases u2; rw [hu] at hmem; exact hmem
    simp only [Engine.updateStateAfterRotation, List.mem_cons, List.mem_append,
      List.mem_singleton, List.not_mem_nil, or_false, Effect.writeTokenState.injEq] at hmem'
    rcases hmem' with (h' | h' | h') | ⟨hpath, hst'⟩
    · exact Effect.noConfusion h'
    · exact Effect.noConfusion h'
    · obtain ⟨sc, _, _, he⟩ :=
        storeTokenInBackends_effects e (s0 :: rest) newToken.token _ h'
      exact Effect.noConfusion he
    · exact ⟨hpath, newToken, rfl, hst'⟩

/-- Full characterization of any record write issued by `createNewToken`:
fields come from the minted token, the previous-identifier fields are
zeroed, and the counter is carried over unchanged from the prior record. -/
theorem createNewToken_writeState (e : Engine) (now : Time) (cfg : TokenConfig)
    (validity : Duration) (s0 : StorageConfig) (rest : List StorageConfig)
    (prior : Option TokenState)
    (hd : e.dryRun = false) (hs : cfg.storage = s0 :: rest)
    (hr : e.vaultClient.readTokenState s0.path = .ok prior) :
    ∀ path st, Effect.writeTokenState path st ∈ (e.createNewToken now cfg validity).2 →
      path = s0.path ∧ ∃ newToken,
        e.linodeClient.createToken cfg.label cfg.scopes (now + validity) = .ok newToken
        ∧ st = { label := newToken.label, currentLinodeID := newToken.id,
                 currentTokenValue := newToken.token, lastRotatedAt := now,
                 previousLinodeID := 0, previousExpiresAt := 0,
                 rotationCount := priorRotationCount prior } := by
  intro path st hmem
  unfold Engine.createNewToken at hmem
  rw [if_neg (by simp [hd]), hs] at hmem
  dsimp only at hmem
  rw [hr] at hmem
  dsimp only at hmem
  cases hc : e.linodeClient.createToken cfg.label cfg.scopes (now + validity) with
  | error cerr =>
    rw [hc] at hmem
    simp at hmem
  | ok newToken =>
    rw [hc] at hmem
    dsimp only at hmem
    have hmem' : Effect.writeTokenState path st ∈ Effect.readTokenState s0.path ::
        Effect.createToken cfg.label cfg.scopes (now + validity) ::
        (e.storeTokenInBackends (s0 :: rest) newToken.token).2 ++
        (e.updateState now s0.path newToken prior).2 := by
      cases hst : (e.storeTokenInBackends (s0 :: rest) newToken.token).1 with
      | error serr => rw [hst] at hmem; exact hmem
      | ok u =>
        cases u
        rw [hst] at hmem
        cases hu : (e.updateState now s0.path newToken prior).1 with
        | error uerr => rw [hu] at hmem; exact hmem
        | ok u2 => cases u2; rw [hu] at hmem; exact hmem
    simp only [Engine.updateState, List.mem_cons, List.mem_append,
      List.mem_singleton, List.not_mem_nil, or_false, Effect.writeTokenState.injEq] at hmem'
    rcases hmem' with (h' | h' | h') | ⟨hpath, hst'⟩
    · exact Effect.noConfusion h'
    · exact Effect.noConfusion h'
    · obtain ⟨sc, _, _, he⟩ :=
        storeTokenInBackends_effects e (s0 :: rest) newToken.token _ h'
      exact Effect.noConfusion he
    · exact ⟨hpath, newToken, rfl, hst'⟩

/-- A vault whose reads see the record `rec` and whose writes succeed:
one cycle's view of a store under last-write-wins threading. -/
def threadVault (rec : Option TokenState) : VaultClient :=
  { writeToken := fun _ _ => .ok ()
    readToken := fun _ => .error "not used"
    writeTokenState := fun _ _ => .ok ()
    readTokenState := fun _ => .ok rec }

/-- An engine over a healthy issuer and `threadVault rec`. -/
def threadEngine (rec : Option TokenState) : Engine :=
  { linodeClient :=
      { createToken := fun label scopes expiry =>
          .ok { id := 1, label := label, token := "s", createdAt := 0,
                expiresAt := expiry, scopes := scopes, team := "", validity := 0 }
        findTokenByLabel := fun _ => .ok none
        revokeToken := fun _ => .ok ()
        listTokens := .ok [] }
    vaultClient := threadVault rec
    dryRun := false }

/-- A policy with a single vault storage target at path `p`. -/
def threadCfg : TokenConfig :=
  { label := "t1", team := "", validity := "90d", scopes := "*",
    rotationThreshold := 0, storage := [{ type := "vault", path := "p" }] }

/-- The record a call leaves in the store, read off its trace: the last
record write wins, `none` when no record write was issued. -/
def writtenRecord (effs : List Effect) : Option TokenState :=
  effs.foldl
    (fun acc eff =>
      match eff with
      | .writeTokenState _ st => some st
      | _ => acc)
    none

/-- The store's record after `n` successful rotations threaded through the
store, starting from no record. -/
def recordAfterRotations (oldTok : Token) : Nat → Option TokenState
  | 0 => none
  | n + 1 =>
      writtenRecord ((threadEngine (recordAfterRotations oldTok n)).rotateToken 0
        threadCfg oldTok 100).2

/-- One threaded rotation writes the counter of the prior record plus 1. -/
theorem recordAfterRotations_succ (oldTok : Token) (n : Nat) :
    recordAfterRotations oldTok (n + 1)
      = some { label := "t1", currentLinodeID := 1, currentTokenValue := "s",
               lastRotatedAt := 0, previousLinodeID := oldTok.id,
               previousExpiresAt := oldTok.expiresAt,
               rotationCount :=
                 priorRotationCount (recordAfterRotations oldTok n) + 1 } := by
  rw [recordAfterRotations]
  simp [threadEngine, threadVault, threadCfg, Engine.rotateToken,
    Engine.storeTokenInBackends, Engine.updateStateAfterRotation, writtenRecord]

/-- C3: the counter written on a successful rotation is the prior record's
counter plus exactly 1 (`0 + 1` with no prior record); the counter written
on first creation is the prior record's counter unchanged (`0` with no
prior record); and after `n + 1` successful threaded rotations starting
from no record the stored counter equals `n + 1`. -/
theorem rotationCounter_spec (e : Engine) (now : Time) (cfg : TokenConfig)
    (old : Token) (validity : Duration) (s0 : StorageConfig)
    (rest : List StorageConfig) (prior : Option TokenState)
    (hd : e.dryRun = false) (hs : cfg.storage = s0 :: rest)
    (hr : e.vaultClient.readTokenState s0.path = .ok prior) :
    (∀ path st, Effect.writeTokenState path st ∈ (e.rotateToken now cfg old validity).2 →
      st.rotationCount = priorRotationCount prior + 1)
    ∧ (∀ path st, Effect.writeTokenState path st ∈ (e.createNewToken now cfg validity).2 →
      st.rotationCount = priorRotationCount prior)
    ∧ (∀ n : Nat, ∃ st, recordAfterRotations old (n + 1) = some st
        ∧ st.rotationCount = (n : Int) + 1) := by
  refine ⟨?_, ?_, ?_⟩
  · intro path st hmem
    obtain ⟨-, newToken, -, hst⟩ :=
      rotateToken_writeState e now cfg old validity s0 rest prior hd hs hr path st hmem
    rw [hst]
  · intro path st hmem
    obtain ⟨-, newToken, -, hst⟩ :=
      createNewToken_writeState e now cfg validity s0 rest prior hd hs hr path st hmem
    rw [hst]
  · intro n
    induction n with
    | zero =>
      refine ⟨_, recordAfterRotations_succ old 0, ?_⟩
      simp [recordAfterRotations, priorRotationCount]
    | succ m ih =>
      obtain ⟨st, hrec, hcount⟩ := ih
      refine ⟨_, recordAfterRotations_succ old (m + 1), ?_⟩
      rw [hrec]
      simp only [priorRotationCount]
      rw [hcount]
      push_cast
      ring

/-- Witness for C3 over the threading environment itself. -/
theorem rotationCounter_spec_witness :
    ((∀ path st, Effect.writeTokenState path st ∈
        ((threadEngine none).rotateToken 0 threadCfg sampleToken 100).2 →
      st.rotationCount = priorRotationCount none + 1)
    ∧ (∀ path st, Effect.writeTokenState path st ∈
        ((threadEngine none).createNewToken 0 threadCfg 100).2 →
      st.rotationCount = priorRotationCount none)
    ∧ (∀ n : Nat, ∃ st, recordAfterRotations sampleToken (n + 1) = some st
        ∧ st.rotationCount = (n : Int) + 1)) :=
  rotationCounter_spec (threadEngine none) 0 threadCfg sampleToken 100
    { type := "vault", path := "p" } [] none rfl rfl rfl

/-- Selection fold from a non-empty accumulator: the result is the
accumulator or a list element, and dominates both. -/
theorem selStep_fold_spec (ts : List Token) : ∀ a sel : Token,
    ts.foldl selStep (some a) = some sel →
    (sel = a ∨ sel ∈ ts) ∧ a.createdAt ≤ sel.createdAt
      ∧ ∀ t ∈ ts, t.createdAt ≤ sel.createdAt := by
  induction ts with
  | nil =>
    intro a sel h
    simp only [List.foldl_nil, Option.some.injEq] at h
    subst h
    exact ⟨Or.inl rfl, le_refl _, by simp⟩
  | cons t ts ih =>
    intro a sel h
    rw [List.foldl_cons] at h
    by_cases hgt : t.createdAt > a.createdAt
    · have h' : ts.foldl selStep (some t) = some sel := by
        simpa [selStep, hgt] using h
      obtain ⟨hmem, hle, hall⟩ := ih t sel h'
      refine ⟨?_, le_trans (le_of_lt hgt) hle, ?_⟩
      · rcases hmem with rfl | hm
        · exact Or.inr (List.mem_cons_self _ _)
        · exact Or.inr (List.mem_cons_of_mem _ hm)
      · intro x hx
        rcases List.mem_cons.mp hx with rfl | hx'
        · exact hle
        · exact hall x hx'
    · have h' : ts.foldl selStep (some a) = some sel := by
        simpa [selStep, hgt] using h
      obtain ⟨hmem, hle, hall⟩ := ih a sel h'
      refine ⟨?_, hle, ?_⟩
      · rcases hmem with rfl | hm
        · exact Or.inl rfl
        · exact Or.inr (List.mem_cons_of_mem _ hm)
      · intro x hx
        rcases List.mem_cons.mp hx with rfl | hx'
        · exact le_trans (not_lt.mp hgt) hle
        · exact hall x hx'

/-- The selected duplicate is a list element whose creation timestamp is
maximal in the list. -/
theorem selectNewest_spec (ts : List Token) (sel : Token)
    (h : selectNewest ts = some sel) :
    sel ∈ ts ∧ ∀ t ∈ ts, t.createdAt ≤ sel.createdAt := by
  cases ts with
  | nil => simp [selectNewest] at h
  | cons t ts' =>
    rw [selectNewest, List.foldl_cons] at h
    obtain ⟨hmem, hle, hall⟩ := selStep_fold_spec ts' t sel (by simpa [selStep] using h)
    refine ⟨?_, ?_⟩
    · rcases hmem with rfl | hm
      · exact List.mem_cons_self _ _
      · exact List.mem_cons_of_mem _ hm
    · intro x hx
      rcases List.mem_cons.mp hx with rfl | hx'
      · exact hle
      · exact hall x hx'

/-- C6: with two or more credentials returned for the label, `ProcessToken`
selects one with maximal creation timestamp; the rotation decision is taken
on that credential alone, and any record written carries its identifier and
expiry as the previous-credential fields. -/
theorem duplicateLabel_tiebreak (e : Engine) (now : Time) (cfg : TokenConfig)
    (thr : Int) (validity : Duration) (ts : List Token) (sel : Token)
    (hv : ParseValidityDuration cfg.validity = .ok validity)
    (hfind : e.linodeClient.findTokenByLabel cfg.label = .ok (some ts))
    (hlen : 2 ≤ ts.length)
    (hsel : selectNewest ts = some sel) :
    (sel ∈ ts ∧ ∀ t ∈ ts, t.createdAt ≤ sel.createdAt)
    ∧ (e.ProcessToken now cfg thr =
        if ({ sel with validity := validity } : Token).NeedsRotation now thr then
          ((e.rotateToken now cfg { sel with validity := validity } validity).1,
            .findTokenByLabel cfg.label ::
              (e.rotateToken now cfg { sel with validity := validity } validity).2)
        else (.ok, [.findTokenByLabel cfg.label]))
    ∧ (∀ s0 rest prior, e.dryRun = false → cfg.storage = s0 :: rest →
        e.vaultClient.readTokenState s0.path = .ok prior →
        ∀ path st, Effect.writeTokenState path st ∈ (e.ProcessToken now cfg thr).2 →
          st.previousLinodeID = sel.id ∧ st.previousExpiresAt = sel.expiresAt) := by
  have hproc : e.ProcessToken now cfg thr =
      if ({ sel with validity := validity } : Token).NeedsRotation now thr then
        ((e.rotateToken now cfg { sel with validity := validity } validity).1,
          .findTokenByLabel cfg.label ::
            (e.rotateToken now cfg { sel with validity := validity } validity).2)
      else (.ok, [.findTokenByLabel cfg.label]) := by
    unfold Engine.ProcessToken
    rw [hv]
    dsimp only
    rw [hfind]
    dsimp only
    rw [hsel]
  refine ⟨selectNewest_spec ts sel hsel, hproc, ?_⟩
  intro s0 rest prior hd hstor hr path st hmem
  rw [hproc] at hmem
  by_cases hrot : ({ sel with validity := validity } : Token).NeedsRotation now thr = true
  · rw [if_pos hrot] at hmem
    dsimp only at hmem
    rcases List.mem_cons.mp hmem with h' | h'
    · exact Effect.noConfusion h'
    · obtain ⟨hpath, newToken, hc, hst'⟩ :=
        rotateToken_writeState e now cfg { sel with validity := validity } validity
          s0 rest prior hd hstor hr path st h'
      rw [hst']
      exact ⟨rfl, rfl⟩
  · rw [if_neg hrot] at hmem
    simp at hmem

/-- Witness for C6: two credentials share label `"t1"`; the one created at
instant 50 beats the one created at instant 0. -/
theorem duplicateLabel_tiebreak_witness :
    let wtOld : Token :=
      { id := 11, label := "t1", token := "", createdAt := 0, expiresAt := 100,
        scopes := "*", team := "", validity := 100 }
    let wtNew : Token :=
      { id := 12, label := "t1", token := "", createdAt := 50, expiresAt := 200,
        scopes := "*", team := "", validity := 150 }
    let e : Engine :=
      { linodeClient :=
          { createToken := fun _ _ _ => .ok wtNew
            findTokenByLabel := fun _ => .ok (some [wtOld, wtNew])
            revokeToken := fun _ => .ok ()
            listTokens := .ok [] }
        vaultClient :=
          { writeToken := fun _ _ => .ok ()
            readToken := fun _ => .error "unused"
            writeTokenState := fun _ _ => .ok ()
            readTokenState := fun _ => .ok none }
        dryRun := false }
    let cfg : TokenConfig :=
      { label := "t1", team := "", validity := "90d", scopes := "*",
        rotationThreshold := 0, storage := [{ type := "vault", path := "p" }] }
    let v : Duration := 90 * 24 * hour
    (wtNew ∈ [wtOld, wtNew] ∧ ∀ t ∈ [wtOld, wtNew], t.createdAt ≤ wtNew.createdAt)
    ∧ (e.ProcessToken 0 cfg 10 =
        if ({ wtNew with validity := v } : Token).NeedsRotation 0 10 then
          ((e.rotateToken 0 cfg { wtNew with validity := v } v).1,
            .findTokenByLabel cfg.label ::
              (e.rotateToken 0 cfg { wtNew with validity := v } v).2)
        else (.ok, [.findTokenByLabel cfg.label]))
    ∧ (∀ s0 rest prior, e.dryRun = false → cfg.storage = s0 :: rest →
        e.vaultClient.readTokenState s0.path = .ok prior →
        ∀ path st, Effect.writeTokenState path st ∈ (e.ProcessToken 0 cfg 10).2 →
          st.previousLinodeID = wtNew.id ∧ st.previousExpiresAt = wtNew.expiresAt) :=
  duplicateLabel_tiebreak _ 0 _ 10 (90 * 24 * hour) [_, _] _
    (by rfl) rfl (by decide) (by decide)

/-- C5 counterexample: a query result that is an empty but non-nil list
does not take the creation path — `ProcessToken` hits the Go nil-pointer
dereference on `existingToken.Validity = validity` instead, while the
creation path at the same input would have succeeded. -/
theorem emptyNonNilList_panics :
    let e : Engine :=
      { linodeClient :=
          { createToken := fun _ _ _ => .ok sampleToken
            findTokenByLabel := fun _ => .ok (some [])
            revokeToken := fun _ => .ok ()
            listTokens := .ok [] }
        vaultClient :=
          { writeToken := fun _ _ => .ok ()
            readToken := fun _ => .error "unused"
            writeTokenState := fun _ _ => .ok ()
            readTokenState := fun _ => .ok none }
        dryRun := false }
    let cfg : TokenConfig :=
      { label := "t1", team := "", validity := "90d", scopes := "*",
        rotationThreshold := 0, storage := [{ type := "vault", path := "p" }] }
    e.ProcessToken 0 cfg 10
      = (.panic "runtime error: invalid memory address or nil pointer dereference",
         [.findTokenByLabel "t1"])
    ∧ (e.createNewToken 0 cfg (90 * 24 * hour)).1 = .ok :=
  ⟨by rfl, by rfl⟩

/-- C5 (amended): when the issuer query returns a nil/absent list — which
is what the repository's `FindTokenByLabel` produces when no credential
matches — `ProcessToken` invokes the creation path and never the
rotation/evaluation path; a non-nil empty list instead triggers a
nil-pointer dereference before either path. -/
theorem nilList_takes_creation_path (e : Engine) (now : Time) (cfg : TokenConfig)
    (thr : Int) (validity : Duration)
    (hv : ParseValidityDuration cfg.validity = .ok validity)
    (hfind : e.linodeClient.findTokenByLabel cfg.label = .ok none) :
    (e.ProcessToken now cfg thr
      = ((e.createNewToken now cfg validity).1,
         .findTokenByLabel cfg.label :: (e.createNewToken now cfg validity).2))
    ∧ (∀ e' : Engine, e'.linodeClient.findTokenByLabel cfg.label = .ok (some []) →
        e'.ProcessToken now cfg thr
          = (.panic "runtime error: invalid memory address or nil pointer dereference",
             [.findTokenByLabel cfg.label])) := by
  constructor
  · unfold Engine.ProcessToken
    rw [hv]
    dsimp only
    rw [hfind]
  · intro e' hfind'
    unfold Engine.ProcessToken
    rw [hv]
    dsimp only
    rw [hfind']
    rfl

/-- Witness for C5 (amended) with a nil query result. -/
theorem nilList_takes_creation_path_witness :
    let e : Engine :=
      { linodeClient :=
          { createToken := fun _ _ _ => .ok sampleToken
            findTokenByLabel := fun _ => .ok none
            revokeToken := fun _ => .ok ()
            listTokens := .ok [] }
        vaultClient :=
          { writeToken := fun _ _ => .ok ()
            readToken := fun _ => .error "unused"
            writeTokenState := fun _ _ => .ok ()
            readTokenState := fun _ => .ok none }
        dryRun := false }
    let cfg : TokenConfig :=
      { label := "t1", team := "", validity := "90d", scopes := "*",
        rotationThreshold := 0, storage := [{ type := "vault", path := "p" }] }
    (e.ProcessToken 0 cfg 10
      = ((e.createNewToken 0 cfg (90 * 24 * hour)).1,
         .findTokenByLabel cfg.label :: (e.createNewToken 0 cfg (90 * 24 * hour)).2))
    ∧ (∀ e' : Engine, e'.linodeClient.findTokenByLabel cfg.label = .ok (some []) →
        e'.ProcessToken 0 cfg 10
          = (.panic "runtime error: invalid memory address or nil pointer dereference",
             [.findTokenByLabel cfg.label])) :=
  nilList_takes_creation_path _ 0 _ 10 (90 * 24 * hour) (by rfl) rfl

/-- C7 counterexample: with storage targets `file p0`, `vault p1`,
`vault p2` and the write to `p1` failing, `storeTokenInBackends` attempts
only the `p1` write: `p0` is skipped for its type and `p2` is never
reached, so not every configured storage target is attempted. -/
theorem storeSkipsTargets :
    let e : Engine :=
      { linodeClient :=
          { createToken := fun _ _ _ => .ok sampleToken
            findTokenByLabel := fun _ => .ok none
            revokeToken := fun _ => .ok ()
            listTokens := .ok [] }
        vaultClient :=
          { writeToken := fun p _ => if p = "p1" then .error "boom" else .ok ()
            readToken := fun _ => .error "unused"
            writeTokenState := fun _ _ => .ok ()
            readTokenState := fun _ => .ok none }
        dryRun := false }
    e.storeTokenInBackends
        [{ type := "file", path := "p0" }, { type := "vault", path := "p1" },
         { type := "vault", path := "p2" }] "tok"
      = (.error "boom", [.writeToken "p1" "tok"])
    ∧ Effect.writeToken "p0" "tok" ∉
        (e.storeTokenInBackends
          [{ type := "file", path := "p0" }, { type := "vault", path := "p1" },
           { type := "vault", path := "p2" }] "tok").2
    ∧ Effect.writeToken "p2" "tok" ∉
        (e.storeTokenInBackends
          [{ type := "file", path := "p0" }, { type := "vault", path := "p1" },
           { type := "vault", path := "p2" }] "tok").2 :=
  ⟨by rfl, by decide, by decide⟩

/-- C7 (amended): Phase B attempts a secret write only for storage targets
of type `"vault"`, in list order; when every vault-typed write succeeds it
writes to all of them and succeeds, and it stops at the first failing
vault write, returning its error with no later target attempted. -/
theorem storeVaultTargets_spec (e : Engine) (tok : String) :
    (∀ configs eff, eff ∈ (e.storeTokenInBackends configs tok).2 →
      ∃ sc, sc ∈ configs ∧ sc.type = "vault" ∧ eff = .writeToken sc.path tok)
    ∧ (∀ configs, (∀ sc ∈ configs, sc.type = "vault" →
          e.vaultClient.writeToken sc.path tok = .ok ()) →
        e.storeTokenInBackends configs tok
          = (.ok (), (configs.filter (fun sc => sc.type == "vault")).map
              (fun sc => Effect.writeToken sc.path tok)))
    ∧ (∀ pre sc post ferr,
        (∀ x ∈ pre, x.type = "vault" → e.vaultClient.writeToken x.path tok = .ok ()) →
        sc.type = "vault" → e.vaultClient.writeToken sc.path tok = .error ferr →
        e.storeTokenInBackends (pre ++ sc :: post) tok
          = (.error ferr, (pre.filter (fun x => x.type == "vault")).map
              (fun x => Effect.writeToken x.path tok) ++ [.writeToken sc.path tok])) := by
  refine ⟨fun configs eff h => storeTokenInBackends_effects e configs tok eff h, ?_, ?_⟩
  · intro configs
    induction configs with
    | nil => intro _; rfl
    | cons sc rest ih =>
      intro hall
      by_cases htype : sc.type = "vault"
      · have hw : e.vaultClient.writeToken sc.path tok = .ok () :=
          hall sc (List.mem_cons_self _ _) htype
        have hrest := ih (fun x hx ht => hall x (List.mem_cons_of_mem _ hx) ht)
        rw [Engine.storeTokenInBackends, if_pos htype, hw, hrest]
        simp [htype]
      · have hrest := ih (fun x hx ht => hall x (List.mem_cons_of_mem _ hx) ht)
        rw [Engine.storeTokenInBackends, if_neg htype, hrest]
        simp [htype]
  · intro pre sc post ferr hpre htype hfail
    induction pre with
    | nil =>
      rw [List.nil_append, Engine.storeTokenInBackends, if_pos htype, hfail]
      rfl
    | cons x pre' ih =>
      by_cases hxt : x.type = "vault"
      · have hw : e.vaultClient.writeToken x.path tok = .ok () :=
          hpre x (List.mem_cons_self _ _) hxt
        have hrest := ih (fun y hy ht => hpre y (List.mem_cons_of_mem _ hy) ht)
        rw [List.cons_append, Engine.storeTokenInBackends, if_pos hxt, hw, hrest]
        simp [hxt]
      · have hrest := ih (fun y hy ht => hpre y (List.mem_cons_of_mem _ hy) ht)
        rw [List.cons_append, Engine.storeTokenInBackends, if_neg hxt, hrest]
        simp [hxt]

/-- Witness for C7 (amended), instantiating the all-success conjunct over
the threading engine (whose vault writes succeed) and a mixed target
list. -/
theorem storeVaultTargets_spec_witness :
    (threadEngine none).storeTokenInBackends
        [{ type := "vault", path := "a" }, { type := "file", path := "b" }] "tok"
      = (.ok (), (([{ type := "vault", path := "a" },
                    { type := "file", path := "b" }] : List StorageConfig).filter
            (fun sc => sc.type == "vault")).map
          (fun sc => Effect.writeToken sc.path "tok")) :=
  (storeVaultTargets_spec (threadEngine none) "tok").2.1
    [{ type := "vault", path := "a" }, { type := "file", path := "b" }]
    (fun _ _ _ => rfl)

end Latr
